import Mathlib

set_option maxRecDepth 10000

/-!
Shallow embedding of the opportunity scoring and filtering engine of
`src/schwab-options-desktop/src/OptionsScanner.js`.

JavaScript numbers are modelled as rationals (`Rat`); machine volumes and
counts as `Nat`; absent object fields (defaulted with `|| 0` in the source)
as `Option` with `Option.getD 0` applied exactly where the source defaults.
`Math.round` in JavaScript rounds half away from zero towards positive
infinity on finite inputs, i.e. `Math.round x = ⌊x + 1/2⌋`.
Wall-clock quantities (the `daysToExpiry` date subtraction, log timestamps,
`Date.now()` ids) are inputs of the embedding, not computed in it.
-/

namespace OptionsScanner

/-- List of symbols scanned by the engine, from `POPULAR_SYMBOLS`
(OptionsScanner.js lines 7-11). -/
def POPULAR_SYMBOLS : List String :=
  ["SPY", "QQQ", "AAPL", "TSLA", "MSFT", "GOOGL", "AMZN", "NVDA", "META", "NFLX",
   "AMD", "BABA", "DIS", "UBER", "PYPL", "ZOOM", "CRM", "SHOP", "SQ", "ROKU",
   "PELOTON", "GME", "AMC", "BB"]

/-- Strategy identifiers with display labels, from `TRADING_STRATEGIES`
(lines 13-19). The keys form the closed set of recognized strategy ids. -/
def TRADING_STRATEGIES : List (String × String) :=
  [("HIGH_MOMENTUM", "High Momentum 🚀"),
   ("HIGH_VALUE", "High Value 💰"),
   ("VOLATILITY_EXPANSION", "Volatility Expansion 📈"),
   ("EARNINGS_PLAYS", "Earnings Plays 📊"),
   ("TECHNICAL_SETUPS", "Technical Setups 📐")]

/-- One entry of the `LIQUIDITY_LEVELS` table (lines 21-25). -/
structure LiquidityLevel where
  label : String
  color : String
  minVolume : Nat
deriving DecidableEq

/-- Shape of the `LIQUIDITY_LEVELS` constant object. -/
structure LiquidityLevels where
  HIGH : LiquidityLevel
  MEDIUM : LiquidityLevel
  LOW : LiquidityLevel
deriving DecidableEq

/-- Volume thresholds for liquidity tiers, from `LIQUIDITY_LEVELS` (lines 21-25). -/
def LIQUIDITY_LEVELS : LiquidityLevels :=
  { HIGH := { label := "HIGH", color := "#00C851", minVolume := 1000 },
    MEDIUM := { label := "MEDIUM", color := "#ffbb33", minVolume := 500 },
    LOW := { label := "LOW", color := "#ff4444", minVolume := 0 } }

/-- Risk configuration, from the `riskSettings` state object (lines 36-44). -/
structure RiskSettings where
  maxOptionPrice : Rat
  maxRiskPerTrade : Rat
  portfolioRiskLimit : Rat
  minVolume : Nat
  maxSpreadPercent : Rat
  minDaysToExpiry : Int
  maxDaysToExpiry : Int
deriving DecidableEq

/-- Initial value of `riskSettings` (lines 36-44). -/
def defaultRiskSettings : RiskSettings :=
  { maxOptionPrice := 500, maxRiskPerTrade := 1000, portfolioRiskLimit := 5000,
    minVolume := 500, maxSpreadPercent := 10,
    minDaysToExpiry := 7, maxDaysToExpiry := 45 }

/-- One raw provider contract, the element of a strike's contract array.
Fields the source defaults with `|| 0` (or `|| fallback` for the
description) are `Option`-valued here. -/
structure RawContract where
  bid : Option Rat
  ask : Option Rat
  totalVolume : Option Nat
  openInterest : Option Nat
  delta : Option Rat
  gamma : Option Rat
  theta : Option Rat
  vega : Option Rat
  volatility : Option Rat
  timeValue : Option Rat
  description : Option String
deriving DecidableEq

/-- One expiration-date bucket of a provider expiration map. `daysToExpiry`
abstracts `Math.ceil((new Date(expDate) - new Date()) / 86400000)`
(line 177), a wall-clock computation performed at the embedding boundary;
`strikes` pairs each parsed strike price with its contract array. -/
structure ExpEntry where
  expDate : String
  daysToExpiry : Int
  strikes : List (Rat × List RawContract)
deriving DecidableEq

/-- Provider payload for one symbol: `response.data` with its optional
`callExpDateMap` and `putExpDateMap` (line 169). A `none` map models an
absent (falsy) field. -/
structure ChainPayload where
  callExpDateMap : Option (List ExpEntry)
  putExpDateMap : Option (List ExpEntry)
deriving DecidableEq

/-- NormalizedOpportunity record as built at lines 189-212. -/
structure Opportunity where
  symbol : String
  type : String
  strike : Rat
  premium : Rat
  bid : Rat
  ask : Rat
  volume : Nat
  totalVolume : Nat
  openInterest : Nat
  delta : Rat
  gamma : Rat
  theta : Rat
  vega : Rat
  volatility : Rat
  timeValue : Rat
  daysToExpiry : Int
  expDate : String
  contractId : String
  lceScore : Int
  liquidity : String
deriving DecidableEq

/-- JavaScript `Math.round` on finite values: half rounds towards +∞. -/
def jsRound (q : Rat) : Int := ⌊q + 1/2⌋

/-- Liquidity sub-score of `calculateLCEScore` (lines 76-80): step function
of `option.totalVolume || 0`. -/
def liquidityScoreOf (o : Opportunity) : Rat :=
  let volume := o.totalVolume
  if volume ≥ 1000 then 100
  else if volume ≥ 500 then 75
  else if volume ≥ 100 then 50
  else if volume ≥ 50 then 25
  else 0

/-- Spread as percent of premium (lines 71-73): `premium = (bid + ask) / 2`,
`spread = ask - bid`, `spreadPercent = premium > 0 ? spread / premium * 100 : 100`. -/
def spreadPercentOf (o : Opportunity) : Rat :=
  let premium := (o.bid + o.ask) / 2
  let spread := o.ask - o.bid
  if premium > 0 then spread / premium * 100 else 100

/-- Cost-efficiency sub-score of `calculateLCEScore` (lines 83-88): step
function of `spreadPercentOf`. -/
def costScoreOf (o : Opportunity) : Rat :=
  let spreadPercent := spreadPercentOf o
  if spreadPercent ≤ 3 then 100
  else if spreadPercent ≤ 5 then 80
  else if spreadPercent ≤ 10 then 60
  else if spreadPercent ≤ 15 then 40
  else if spreadPercent ≤ 25 then 20
  else 0

/-- Value sub-score of `calculateLCEScore` (lines 91-96). In the source the
branch computes `Math.min(100, (timeValue / premium) * 100)`; when
`premium = 0` (and `timeValue > 0` by the guard) the JavaScript division
yields `+Infinity` and the `min` yields `100`, written here explicitly
since `Rat` has no infinity. -/
def valueScoreOf (o : Opportunity) : Rat :=
  let premium := (o.bid + o.ask) / 2
  let impliedVol := o.volatility
  let timeValue := o.timeValue
  if timeValue > 0 ∧ impliedVol > 0 then
    if premium = 0 then 100 else min 100 (timeValue / premium * 100)
  else 0

/-- LCE scoring algorithm `calculateLCEScore` (lines 66-108): weighted sum
of the three sub-scores, rounded, then clamped by
`Math.max(0, Math.min(100, lceScore))`. The `try/catch` of the source is
vacuous on rationals (scoring never throws). -/
def calculateLCEScore (o : Opportunity) : Int :=
  let lceScore := jsRound
    (liquidityScoreOf o * 0.4 + costScoreOf o * 0.35 + valueScoreOf o * 0.25)
  max 0 (min 100 lceScore)

/-- Liquidity tier assignment (lines 211-212): nested conditional on
`totalVolume` against the `LIQUIDITY_LEVELS` thresholds. -/
def liquidityTier (v : Nat) : String :=
  if v ≥ LIQUIDITY_LEVELS.HIGH.minVolume then "HIGH"
  else if v ≥ LIQUIDITY_LEVELS.MEDIUM.minVolume then "MEDIUM"
  else "LOW"

/-- Per-option predicate of `applyStrategyFilter` (lines 112-132). The
`option.delta &&` / `option.volatility &&` truthiness guards of the source
are the `≠ 0` conjuncts. Unrecognized strategy ids hit the `default`
branch and pass everything. -/
def strategyPasses (cfg : RiskSettings) (strategy : String) (o : Opportunity) : Bool :=
  match strategy with
  | "HIGH_MOMENTUM" =>
      decide (o.delta ≠ 0) && decide (|o.delta| > 0.4) && decide (o.totalVolume ≥ 500)
  | "HIGH_VALUE" =>
      decide (o.lceScore ≥ 70) && decide (o.premium ≤ cfg.maxOptionPrice)
  | "VOLATILITY_EXPANSION" =>
      decide (o.volatility ≠ 0) && decide (o.volatility > 0.3) && decide (o.gamma > 0.01)
  | "EARNINGS_PLAYS" =>
      decide (o.daysToExpiry ≤ 14) && decide (o.totalVolume ≥ 1000)
  | "TECHNICAL_SETUPS" =>
      decide (o.delta ≠ 0) && decide (|o.delta| ≥ 0.3) && decide (o.theta < -0.05)
  | _ => true

/-- Descending sort by `lceScore`, the effect of
`.sort((a, b) => b.lceScore - a.lceScore)` (lines 134 and 273). -/
def sortByLceDesc (l : List Opportunity) : List Opportunity :=
  l.mergeSort (fun a b => decide (b.lceScore ≤ a.lceScore))

/-- Strategy filter `applyStrategyFilter` (lines 111-135): filter by the
strategy predicate, sort descending by `lceScore`, keep the top 50. -/
def applyStrategyFilter (options : List Opportunity) (strategy : String)
    (cfg : RiskSettings) : List Opportunity :=
  let filtered := options.filter (strategyPasses cfg strategy)
  (sortByLceDesc filtered).take 50

/-- Construction of one normalized opportunity (lines 189-212): the record
literal, then `option.lceScore = calculateLCEScore(option)`, then the
liquidity tier assignment. -/
def mkOpportunity (sym ty : String) (strike : Rat) (e : ExpEntry)
    (contract : RawContract) (premium : Rat) : Opportunity :=
  let option0 : Opportunity :=
    { symbol := sym
      type := ty
      strike := strike
      premium := premium
      bid := contract.bid.getD 0
      ask := contract.ask.getD 0
      volume := contract.totalVolume.getD 0
      totalVolume := contract.totalVolume.getD 0
      openInterest := contract.openInterest.getD 0
      delta := contract.delta.getD 0
      gamma := contract.gamma.getD 0
      theta := contract.theta.getD 0
      vega := contract.vega.getD 0
      volatility := contract.volatility.getD 0
      timeValue := contract.timeValue.getD 0
      daysToExpiry := e.daysToExpiry
      expDate := e.expDate
      contractId := contract.description.getD
        (sym ++ "_" ++ ty ++ "_" ++ toString strike ++ "_" ++ e.expDate)
      lceScore := 0
      liquidity := "" }
  let option1 := { option0 with lceScore := calculateLCEScore option0 }
  { option1 with liquidity := liquidityTier option1.totalVolume }

/-- Inner helper `processExpDateMap` of `fetchOptionsChain` (lines 174-220):
walk each expiration bucket within the configured expiry window, take the
first contract of each non-empty strike array, and retain it when
`premium ≤ maxOptionPrice && premium > 0`. -/
def processExpDateMap (sym : String) (cfg : RiskSettings)
    (expDateMap : Option (List ExpEntry)) (ty : String) : List Opportunity :=
  (expDateMap.getD []).flatMap (fun e =>
    if cfg.minDaysToExpiry ≤ e.daysToExpiry ∧ e.daysToExpiry ≤ cfg.maxDaysToExpiry then
      e.strikes.flatMap (fun sc =>
        match sc.2 with
        | [] => []
        | contract :: _ =>
          let premium := (contract.bid.getD 0 + contract.ask.getD 0) / 2
          if premium ≤ cfg.maxOptionPrice ∧ premium > 0 then
            [mkOpportunity sym ty sc.1 e contract premium]
          else [])
    else [])

/-- Body of `fetchOptionsChain` before the `catch` (lines 163-225): a
missing payload, or a payload with neither a call map nor a put map, is the
thrown `No options data` error; otherwise both maps are processed and the
`minVolume` filter is applied once to the combined list (line 225). -/
def fetchOptionsChainEx (sym : String) (payload : Option ChainPayload)
    (cfg : RiskSettings) : Except String (List Opportunity) :=
  match payload with
  | none => Except.error ("No options data for " ++ sym)
  | some d =>
    if d.callExpDateMap.isNone && d.putExpDateMap.isNone then
      Except.error ("No options data for " ++ sym)
    else
      let options := processExpDateMap sym cfg d.callExpDateMap "CALL"
        ++ processExpDateMap sym cfg d.putExpDateMap "PUT"
      Except.ok (options.filter (fun opt => decide (opt.totalVolume ≥ cfg.minVolume)))

/-- One activity-log event emitted via `addActivityLog(message, type)`. -/
structure LogEvent where
  message : String
  type : String
deriving DecidableEq

/-- Observable result of `fetchOptionsChain` including its `catch` branch
(lines 227-230): an error is logged with severity `error` and the function
returns the empty list. -/
structure FetchResult where
  opportunities : List Opportunity
  log : List LogEvent
deriving DecidableEq

/-- The caught `fetchOptionsChain` (lines 163-231). -/
def fetchOptionsChain (sym : String) (payload : Option ChainPayload)
    (cfg : RiskSettings) : FetchResult :=
  match fetchOptionsChainEx sym payload cfg with
  | Except.ok os => { opportunities := os, log := [] }
  | Except.error msg =>
    { opportunities := [],
      log := [{ message := "Failed to fetch options for " ++ sym ++ ": " ++ msg,
                type := "error" }] }

/-- The `allOpportunities` accumulation loop of `startScan` (lines 245-269):
for each symbol, fetch its chain, apply the strategy filter, and append the
filtered opportunities. -/
def scanAccum (ps : List (String × Option ChainPayload)) (strat : String)
    (cfg : RiskSettings) : List Opportunity :=
  ps.foldl (fun acc sp =>
    acc ++ applyStrategyFilter (fetchOptionsChain sp.1 sp.2 cfg).opportunities strat cfg) []

/-- Final ranking of `startScan` (lines 271-274): sort the accumulated
opportunities descending by `lceScore` and keep the top 100. -/
def startScanCore (ps : List (String × Option ChainPayload)) (strat : String)
    (cfg : RiskSettings) : List Opportunity :=
  (sortByLceDesc (scanAccum ps strat cfg)).take 100

/-- One activity-log entry of the `activityLog` state. `timestamp` and `id`
are produced from the wall clock in the source (lines 151-157) and are
carried here as given data. -/
structure LogEntry where
  timestamp : String
  message : String
  type : String
  id : Nat
deriving DecidableEq

/-- State update of `addActivityLog` (line 159):
`setActivityLog(prev => [logEntry, ...prev.slice(0, 99)])`. -/
def addActivityLog (logEntry : LogEntry) (prev : List LogEntry) : List LogEntry :=
  logEntry :: prev.take 99

/-- Activity log reached from the initial empty state after a sequence of
`addActivityLog` calls, oldest call first. -/
def applyLogs (es : List LogEntry) : List LogEntry :=
  es.foldl (fun acc e => addActivityLog e acc) []

/-- Sortedness in descending `lceScore` order. -/
def SortedByLceDesc (l : List Opportunity) : Prop :=
  l.Pairwise (fun a b => b.lceScore ≤ a.lceScore)

/-- Uppercase Latin letter test for ticker symbols. -/
def isUpperAlpha (c : Char) : Bool :=
  decide ('A' ≤ c) && decide (c ≤ 'Z')

/-- Sample provider contract used to exercise the normalizer on concrete data. -/
def sampleContract : RawContract :=
  { bid := some 2, ask := some (5/2), totalVolume := some 1200, openInterest := none,
    delta := none, gamma := none, theta := none, vega := none,
    volatility := none, timeValue := none, description := some "AAPL_C100" }

/-- Sample chain payload holding `sampleContract` under one call expiration. -/
def samplePayload : ChainPayload :=
  { callExpDateMap := some [{ expDate := "2025-11-01", daysToExpiry := 10,
                              strikes := [(100, [sampleContract])] }],
    putExpDateMap := none }

/-- The normalized opportunity the engine produces from `samplePayload`:
premium 9/4, spread percent 200/9, liquidity sub-score 100, cost sub-score
20, value sub-score 0, LCE score round(40 + 7 + 0) = 47, tier HIGH. -/
def sampleOpp : Opportunity :=
  { symbol := "AAPL", type := "CALL", strike := 100, premium := 9/4, bid := 2, ask := 5/2,
    volume := 1200, totalVolume := 1200, openInterest := 0, delta := 0, gamma := 0,
    theta := 0, vega := 0, volatility := 0, timeValue := 0, daysToExpiry := 10,
    expDate := "2025-11-01", contractId := "AAPL_C100", lceScore := 47, liquidity := "HIGH" }

/-- Sample provider contract for the symbol PELOTON, with enough delta and
volume to pass the HIGH_MOMENTUM strategy. -/
def pelotonContract : RawContract :=
  { bid := some 2, ask := some (5/2), totalVolume := some 1200, openInterest := none,
    delta := some (1/2), gamma := none, theta := none, vega := none,
    volatility := none, timeValue := none, description := some "PELOTON_CALL_100" }

/-- Sample chain payload for the symbol PELOTON. -/
def pelotonPayload : ChainPayload :=
  { callExpDateMap := some [{ expDate := "2025-11-01", daysToExpiry := 10,
                              strikes := [(100, [pelotonContract])] }],
    putExpDateMap := none }

/-- The normalized opportunity the engine produces from `pelotonPayload`. -/
def pelotonOpp : Opportunity :=
  { symbol := "PELOTON", type := "CALL", strike := 100, premium := 9/4, bid := 2, ask := 5/2,
    volume := 1200, totalVolume := 1200, openInterest := 0, delta := 1/2, gamma := 0,
    theta := 0, vega := 0, volatility := 0, timeValue := 0, daysToExpiry := 10,
    expDate := "2025-11-01", contractId := "PELOTON_CALL_100", lceScore := 47, liquidity := "HIGH" }

/-- Sample payload with neither a call map nor a put map. -/
def emptyPayload : ChainPayload :=
  { callExpDateMap := none, putExpDateMap := none }

/-- C1: for every option record, `calculateLCEScore` returns
round(0.40·liquiditySubScore + 0.35·costSubScore + 0.25·valueSubScore)
clamped to [0,100]; in particular the result (an integer by construction)
always satisfies 0 ≤ lceScore ≤ 100, for every input. -/
theorem calculateLCEScore_weighted_clamped (o : Opportunity) :
    calculateLCEScore o
      = max 0 (min 100 (jsRound
          (0.40 * liquidityScoreOf o + 0.35 * costScoreOf o + 0.25 * valueScoreOf o)))
    ∧ 0 ≤ calculateLCEScore o ∧ calculateLCEScore o ≤ 100 := by
  have harg : liquidityScoreOf o * 0.4 + costScoreOf o * 0.35 + valueScoreOf o * 0.25
      = 0.40 * liquidityScoreOf o + 0.35 * costScoreOf o + 0.25 * valueScoreOf o := by
    ring
  refine ⟨by rw [calculateLCEScore, harg], ?_, ?_⟩
  · exact le_max_left 0 _
  · exact max_le (by norm_num) (min_le_left _ _)

/-- C5: within `calculateLCEScore` the cost-efficiency sub-score is the
step function of spreadPercent = (ask − bid)/premium·100 (100 when the
premium is not positive): 100 if ≤ 3, 80 if ≤ 5, 60 if ≤ 10, 40 if ≤ 15,
20 if ≤ 25, else 0; for bid = 2.00 and ask = 2.50 the premium is 2.25,
spreadPercent is 200/9 ≈ 22.2, and the cost sub-score is 20. -/
theorem costScore_step_function (o : Opportunity) :
    calculateLCEScore o
      = max 0 (min 100 (jsRound
          (liquidityScoreOf o * 0.4 + costScoreOf o * 0.35 + valueScoreOf o * 0.25)))
  ∧ spreadPercentOf o
      = (if (o.bid + o.ask) / 2 > 0 then (o.ask - o.bid) / ((o.bid + o.ask) / 2) * 100 else 100)
  ∧ (spreadPercentOf o ≤ 3 → costScoreOf o = 100)
  ∧ (3 < spreadPercentOf o → spreadPercentOf o ≤ 5 → costScoreOf o = 80)
  ∧ (5 < spreadPercentOf o → spreadPercentOf o ≤ 10 → costScoreOf o = 60)
  ∧ (10 < spreadPercentOf o → spreadPercentOf o ≤ 15 → costScoreOf o = 40)
  ∧ (15 < spreadPercentOf o → spreadPercentOf o ≤ 25 → costScoreOf o = 20)
  ∧ (25 < spreadPercentOf o → costScoreOf o = 0)
  ∧ (o.bid = 2 → o.ask = 5/2 →
      (o.bid + o.ask) / 2 = 9/4 ∧ spreadPercentOf o = 200/9 ∧ costScoreOf o = 20) := by
  refine ⟨rfl, rfl, ?_, ?_, ?_, ?_, ?_, ?_, ?_⟩
  · intro h1; simp only [costScoreOf]; rw [if_pos h1]
  · intro h1 h2; simp only [costScoreOf]
    rw [if_neg (by linarith), if_pos h2]
  · intro h1 h2; simp only [costScoreOf]
    rw [if_neg (by linarith), if_neg (by linarith), if_pos h2]
  · intro h1 h2; simp only [costScoreOf]
    rw [if_neg (by linarith), if_neg (by linarith), if_neg (by linarith), if_pos h2]
  · intro h1 h2; simp only [costScoreOf]
    rw [if_neg (by linarith), if_neg (by linarith), if_neg (by linarith),
      if_neg (by linarith), if_pos h2]
  · intro h1; simp only [costScoreOf]
    rw [if_neg (by linarith), if_neg (by linarith), if_neg (by linarith),
      if_neg (by linarith), if_neg (by linarith)]
  · intro hb ha
    have hsp : spreadPercentOf o = 200/9 := by
      simp only [spreadPercentOf, hb, ha]
      norm_num
    refine ⟨by rw [hb, ha]; norm_num, hsp, ?_⟩
    simp only [costScoreOf, hsp]
    norm_num

/-- C5 witness: the scenario contract with bid 2 and ask 5/2 evaluates to
premium 9/4, spread percent 200/9 and cost sub-score 20. -/
theorem costScore_step_function_witness :
    (sampleOpp.bid + sampleOpp.ask) / 2 = 9/4
    ∧ spreadPercentOf sampleOpp = 200/9 ∧ costScoreOf sampleOpp = 20 :=
  (costScore_step_function sampleOpp).2.2.2.2.2.2.2.2 rfl rfl

/-- C10: after any sequence of `addActivityLog` calls starting from the
empty log, the activity log has at most 100 entries; each call prepends the
new entry to the first 99 entries of the previous list, so the most recent
entry is first. -/
theorem activityLog_capped_prepend (es : List OptionsScanner.LogEntry) :
    (applyLogs es).length ≤ 100
  ∧ (∀ (e : LogEntry) (prev : List LogEntry), addActivityLog e prev = e :: prev.take 99)
  ∧ (∀ e : LogEntry, applyLogs (es ++ [e]) = e :: (applyLogs es).take 99) := by
  refine ⟨?_, fun e prev => rfl, fun e => ?_⟩
  · have key : ∀ (l : List LogEntry) (acc : List LogEntry), acc.length ≤ 100 →
        (List.foldl (fun acc e => addActivityLog e acc) acc l).length ≤ 100 := by
      intro l
      induction l with
      | nil => intro acc h; simpa using h
      | cons e rest ih =>
        intro acc _
        refine ih _ ?_
        simp only [addActivityLog, List.length_cons, List.length_take]
        omega
    exact key es [] (by simp)
  · simp [applyLogs, List.foldl_append, addActivityLog]

/-- Unrecognized strategy ids fall through to the `default` arm of the
switch, which keeps every option. -/
lemma strategyPasses_default (cfg : RiskSettings) (s : String) (o : Opportunity)
    (hs : s ∉ TRADING_STRATEGIES.map Prod.fst) : strategyPasses cfg s o = true := by
  unfold strategyPasses
  split
  · exact absurd (by decide) hs
  · exact absurd (by decide) hs
  · exact absurd (by decide) hs
  · exact absurd (by decide) hs
  · exact absurd (by decide) hs
  · rfl

/-- C3: `applyStrategyFilter` retains an opportunity exactly when the fixed
predicate of the selected strategy holds — HIGH_MOMENTUM iff |delta| > 0.4
and volume ≥ 500; HIGH_VALUE iff lceScore ≥ 70 and premium ≤
config.maxOptionPrice; VOLATILITY_EXPANSION iff volatility > 0.3 and
gamma > 0.01; EARNINGS_PLAYS iff daysToExpiry ≤ 14 and volume ≥ 1000;
TECHNICAL_SETUPS iff |delta| ≥ 0.3 and theta < −0.05 — and any strategy id
outside this closed set passes every opportunity through unfiltered. -/
theorem applyStrategyFilter_predicate_characterization (cfg : RiskSettings) (o : Opportunity) :
    (strategyPasses cfg "HIGH_MOMENTUM" o = true ↔ |o.delta| > 0.4 ∧ o.totalVolume ≥ 500)
  ∧ (strategyPasses cfg "HIGH_VALUE" o = true ↔ o.lceScore ≥ 70 ∧ o.premium ≤ cfg.maxOptionPrice)
  ∧ (strategyPasses cfg "VOLATILITY_EXPANSION" o = true ↔ o.volatility > 0.3 ∧ o.gamma > 0.01)
  ∧ (strategyPasses cfg "EARNINGS_PLAYS" o = true ↔ o.daysToExpiry ≤ 14 ∧ o.totalVolume ≥ 1000)
  ∧ (strategyPasses cfg "TECHNICAL_SETUPS" o = true ↔ |o.delta| ≥ 0.3 ∧ o.theta < -0.05)
  ∧ (∀ strat : String, (∀ os : List Opportunity,
      o ∈ os.filter (strategyPasses cfg strat) ↔ o ∈ os ∧ strategyPasses cfg strat o = true))
  ∧ (∀ s : String, s ∉ TRADING_STRATEGIES.map Prod.fst →
      ∀ os : List Opportunity, os.filter (strategyPasses cfg s) = os) := by
  refine ⟨?_, ?_, ?_, ?_, ?_, ?_, ?_⟩
  · show (decide (o.delta ≠ 0) && decide (|o.delta| > 0.4) && decide (o.totalVolume ≥ 500)) = true
      ↔ |o.delta| > 0.4 ∧ o.totalVolume ≥ 500
    simp only [Bool.and_eq_true, decide_eq_true_eq]
    constructor
    · rintro ⟨⟨-, h2⟩, h3⟩; exact ⟨h2, h3⟩
    · rintro ⟨h2, h3⟩
      refine ⟨⟨?_, h2⟩, h3⟩
      intro h0; rw [h0] at h2; norm_num at h2
  · show (decide (o.lceScore ≥ 70) && decide (o.premium ≤ cfg.maxOptionPrice)) = true
      ↔ o.lceScore ≥ 70 ∧ o.premium ≤ cfg.maxOptionPrice
    simp only [Bool.and_eq_true, decide_eq_true_eq]
  · show (decide (o.volatility ≠ 0) && decide (o.volatility > 0.3) && decide (o.gamma > 0.01)) = true
      ↔ o.volatility > 0.3 ∧ o.gamma > 0.01
    simp only [Bool.and_eq_true, decide_eq_true_eq]
    constructor
    · rintro ⟨⟨-, h2⟩, h3⟩; exact ⟨h2, h3⟩
    · rintro ⟨h2, h3⟩
      refine ⟨⟨?_, h2⟩, h3⟩
      intro h0; rw [h0] at h2; norm_num at h2
  · show (decide (o.daysToExpiry ≤ 14) && decide (o.totalVolume ≥ 1000)) = true
      ↔ o.daysToExpiry ≤ 14 ∧ o.totalVolume ≥ 1000
    simp only [Bool.and_eq_true, decide_eq_true_eq]
  · show (decide (o.delta ≠ 0) && decide (|o.delta| ≥ 0.3) && decide (o.theta < -0.05)) = true
      ↔ |o.delta| ≥ 0.3 ∧ o.theta < -0.05
    simp only [Bool.and_eq_true, decide_eq_true_eq]
    constructor
    · rintro ⟨⟨-, h2⟩, h3⟩; exact ⟨h2, h3⟩
    · rintro ⟨h2, h3⟩
      refine ⟨⟨?_, h2⟩, h3⟩
      intro h0; rw [h0] at h2; norm_num at h2
  · intro strat os; exact List.mem_filter
  · intro s hs os
    exact List.filter_eq_self.mpr (fun a _ => strategyPasses_default cfg s a hs)

/-- C3 witness: a strategy id outside the closed set filters nothing, and
the EARNINGS_PLAYS predicate holds on the sample opportunity. -/
theorem applyStrategyFilter_predicate_characterization_witness :
    [sampleOpp].filter (strategyPasses defaultRiskSettings "FOO") = [sampleOpp] :=
  (applyStrategyFilter_predicate_characterization defaultRiskSettings
    sampleOpp).2.2.2.2.2.2 "FOO" (by decide) [sampleOpp]

/-- Descending merge sort by `lceScore` sorts. -/
lemma sortByLceDesc_sorted (l : List Opportunity) : SortedByLceDesc (sortByLceDesc l) := by
  have h := @List.sorted_mergeSort Opportunity (fun a b => decide (b.lceScore ≤ a.lceScore))
    (by intro a b c hab hbc
        simp only [decide_eq_true_eq] at hab hbc ⊢
        exact le_trans hbc hab)
    (by intro a b
        simp only [Bool.or_eq_true, decide_eq_true_eq]
        exact le_total _ _)
    l
  exact h.imp (fun hab => of_decide_eq_true hab)

/-- Taking a prefix preserves descending sortedness. -/
lemma SortedByLceDesc.take (l : List Opportunity) (n : Nat) (h : SortedByLceDesc l) :
    SortedByLceDesc (l.take n) :=
  List.Pairwise.sublist (List.take_sublist n l) h

/-- C4: the output of `applyStrategyFilter` is sorted in descending order
of `lceScore` and has length at most 50, and `startScan`'s final merged
result is sorted in descending order of `lceScore` and has length at most
100, for every input. -/
theorem filter_and_scan_sorted_capped (os : List Opportunity) (strat : String)
    (cfg : RiskSettings) (ps : List (String × Option ChainPayload)) :
    SortedByLceDesc (applyStrategyFilter os strat cfg)
  ∧ (applyStrategyFilter os strat cfg).length ≤ 50
  ∧ SortedByLceDesc (startScanCore ps strat cfg)
  ∧ (startScanCore ps strat cfg).length ≤ 100 := by
  refine ⟨SortedByLceDesc.take _ 50 (sortByLceDesc_sorted _), ?_,
    SortedByLceDesc.take _ 100 (sortByLceDesc_sorted _), ?_⟩
  · show ((sortByLceDesc (os.filter (strategyPasses cfg strat))).take 50).length ≤ 50
    simp [List.length_take]
  · show ((sortByLceDesc (scanAccum ps strat cfg)).take 100).length ≤ 100
    simp [List.length_take]

/-- Every opportunity emitted by `processExpDateMap` carries the fields set
at lines 189-212 and satisfies the retention guards of lines 179-187. -/
lemma mem_processExpDateMap_props (sym : String) (cfg : RiskSettings)
    (m : Option (List ExpEntry)) (ty : String) (o : Opportunity)
    (h : o ∈ processExpDateMap sym cfg m ty) :
    o.symbol = sym ∧ o.type = ty
  ∧ o.premium = (o.bid + o.ask) / 2
  ∧ 0 < o.premium ∧ o.premium ≤ cfg.maxOptionPrice
  ∧ cfg.minDaysToExpiry ≤ o.daysToExpiry ∧ o.daysToExpiry ≤ cfg.maxDaysToExpiry
  ∧ o.liquidity = liquidityTier o.totalVolume := by
  simp only [processExpDateMap, List.mem_flatMap] at h
  obtain ⟨e, he, h⟩ := h
  split at h
  case isFalse => exact absurd h (List.not_mem_nil o)
  case isTrue hdays =>
    simp only [List.mem_flatMap] at h
    obtain ⟨sc, hsc, h⟩ := h
    split at h
    case h_1 => exact absurd h (List.not_mem_nil o)
    case h_2 contract rest harr =>
      split at h
      case isFalse => exact absurd h (List.not_mem_nil o)
      case isTrue hprem =>
        rw [List.mem_singleton] at h
        subst h
        refine ⟨rfl, rfl, rfl, hprem.2, hprem.1, hdays.1, hdays.2, rfl⟩

/-- Every opportunity in an `Except.ok` result of `fetchOptionsChainEx`
satisfies the normalizer invariants together with the `minVolume` filter. -/
lemma mem_fetchEx_ok_props (sym : String) (payload : Option ChainPayload)
    (cfg : RiskSettings) (os : List Opportunity) (o : Opportunity)
    (hok : fetchOptionsChainEx sym payload cfg = Except.ok os) (ho : o ∈ os) :
    o.symbol = sym
  ∧ o.premium = (o.bid + o.ask) / 2
  ∧ 0 < o.premium ∧ o.premium ≤ cfg.maxOptionPrice
  ∧ cfg.minDaysToExpiry ≤ o.daysToExpiry ∧ o.daysToExpiry ≤ cfg.maxDaysToExpiry
  ∧ cfg.minVolume ≤ o.totalVolume
  ∧ o.liquidity = liquidityTier o.totalVolume := by
  rcases payload with _ | d
  · exact absurd hok (by simp [fetchOptionsChainEx])
  · simp only [fetchOptionsChainEx] at hok
    split at hok
    · exact absurd hok (by simp)
    · rw [Except.ok.injEq] at hok
      subst hok
      rw [List.mem_filter] at ho
      obtain ⟨hmem, hvol⟩ := ho
      have hvol' : cfg.minVolume ≤ o.totalVolume := of_decide_eq_true hvol
      rcases List.mem_append.mp hmem with hcall | hput
      · obtain ⟨h1, _, h3, h4, h5, h6, h7, h8⟩ :=
          mem_processExpDateMap_props sym cfg d.callExpDateMap "CALL" o hcall
        exact ⟨h1, h3, h4, h5, h6, h7, hvol', h8⟩
      · obtain ⟨h1, _, h3, h4, h5, h6, h7, h8⟩ :=
          mem_processExpDateMap_props sym cfg d.putExpDateMap "PUT" o hput
        exact ⟨h1, h3, h4, h5, h6, h7, hvol', h8⟩

/-- Every opportunity returned by the caught `fetchOptionsChain` satisfies
the normalizer invariants together with the `minVolume` filter. -/
lemma mem_fetchOpportunities_props (sym : String) (payload : Option ChainPayload)
    (cfg : RiskSettings) (o : Opportunity)
    (h : o ∈ (fetchOptionsChain sym payload cfg).opportunities) :
    o.symbol = sym
  ∧ o.premium = (o.bid + o.ask) / 2
  ∧ 0 < o.premium ∧ o.premium ≤ cfg.maxOptionPrice
  ∧ cfg.minDaysToExpiry ≤ o.daysToExpiry ∧ o.daysToExpiry ≤ cfg.maxDaysToExpiry
  ∧ cfg.minVolume ≤ o.totalVolume
  ∧ o.liquidity = liquidityTier o.totalVolume := by
  rcases hEx : fetchOptionsChainEx sym payload cfg with msg | os
  · simp only [fetchOptionsChain, hEx] at h
    exact absurd h (List.not_mem_nil o)
  · simp only [fetchOptionsChain, hEx] at h
    exact mem_fetchEx_ok_props sym payload cfg os o hEx h

/-- C2: every opportunity returned by `fetchOptionsChain`'s per-contract
processing satisfies premium = (bid + ask)/2, 0 < premium ≤
config.maxOptionPrice, config.minDaysToExpiry ≤ daysToExpiry ≤
config.maxDaysToExpiry and totalVolume ≥ config.minVolume, and the
minVolume filter is applied once to the combined list after both the call
map and the put map have been processed. -/
theorem fetchOptionsChain_retained_invariants (sym : String) (payload : Option ChainPayload)
    (cfg : RiskSettings) (o : Opportunity)
    (h : o ∈ (fetchOptionsChain sym payload cfg).opportunities) :
    o.premium = (o.bid + o.ask) / 2
  ∧ 0 < o.premium ∧ o.premium ≤ cfg.maxOptionPrice
  ∧ cfg.minDaysToExpiry ≤ o.daysToExpiry ∧ o.daysToExpiry ≤ cfg.maxDaysToExpiry
  ∧ cfg.minVolume ≤ o.totalVolume
  ∧ (∀ d : ChainPayload, (d.callExpDateMap.isNone && d.putExpDateMap.isNone) = false →
      fetchOptionsChainEx sym (some d) cfg
        = Except.ok ((processExpDateMap sym cfg d.callExpDateMap "CALL"
            ++ processExpDateMap sym cfg d.putExpDateMap "PUT").filter
              (fun opt => decide (opt.totalVolume ≥ cfg.minVolume)))) := by
  obtain ⟨_, h3, h4, h5, h6, h7, hvol, _⟩ :=
    mem_fetchOpportunities_props sym payload cfg o h
  refine ⟨h3, h4, h5, h6, h7, hvol, ?_⟩
  intro d hd
  simp [fetchOptionsChainEx, hd]

/-- C2 witness: the concrete sample opportunity produced from
`samplePayload` satisfies all the retained-opportunity invariants. -/
theorem fetchOptionsChain_retained_invariants_witness :
    sampleOpp.premium = (sampleOpp.bid + sampleOpp.ask) / 2
  ∧ 0 < sampleOpp.premium ∧ sampleOpp.premium ≤ defaultRiskSettings.maxOptionPrice
  ∧ defaultRiskSettings.minDaysToExpiry ≤ sampleOpp.daysToExpiry
  ∧ sampleOpp.daysToExpiry ≤ defaultRiskSettings.maxDaysToExpiry
  ∧ defaultRiskSettings.minVolume ≤ sampleOpp.totalVolume := by
  have h := fetchOptionsChain_retained_invariants "AAPL" (some samplePayload)
    defaultRiskSettings sampleOpp (of_decide_eq_true (by with_unfolding_all rfl))
  exact ⟨h.1, h.2.1, h.2.2.1, h.2.2.2.1, h.2.2.2.2.1, h.2.2.2.2.2.1⟩

/-- Case analysis of `liquidityTier` against the `LIQUIDITY_LEVELS`
thresholds. -/
lemma liquidityTier_iff (v : Nat) :
    (liquidityTier v = "HIGH" ↔ 1000 ≤ v)
  ∧ (liquidityTier v = "MEDIUM" ↔ 500 ≤ v ∧ v < 1000)
  ∧ (liquidityTier v = "LOW" ↔ v < 500) := by
  have hH : LIQUIDITY_LEVELS.HIGH.minVolume = 1000 := rfl
  have hM : LIQUIDITY_LEVELS.MEDIUM.minVolume = 500 := rfl
  simp only [liquidityTier, hH, hM, ge_iff_le]
  split_ifs with h1 h2
  · refine ⟨⟨fun _ => h1, fun _ => rfl⟩, ?_, ?_⟩
    · exact ⟨fun hs => absurd hs (by decide), fun hc => absurd h1 (by omega)⟩
    · exact ⟨fun hs => absurd hs (by decide), fun hc => absurd h1 (by omega)⟩
  · refine ⟨?_, ⟨fun _ => ⟨h2, by omega⟩, fun _ => rfl⟩, ?_⟩
    · exact ⟨fun hs => absurd hs (by decide), fun hc => absurd hc (by omega)⟩
    · exact ⟨fun hs => absurd hs (by decide), fun hc => absurd hc (by omega)⟩
  · refine ⟨?_, ?_, ⟨fun _ => by omega, fun _ => rfl⟩⟩
    · exact ⟨fun hs => absurd hs (by decide), fun hc => absurd hc (by omega)⟩
    · exact ⟨fun hs => absurd hs (by decide), fun hc => absurd hc.1 (by omega)⟩

/-- C7: the liquidity tier of every normalized opportunity is the
deterministic monotone step function of its volume — HIGH when
volume ≥ 1000, MEDIUM when 500 ≤ volume < 1000, LOW when volume < 500. -/
theorem liquidity_tier_of_volume (sym : String) (payload : Option ChainPayload)
    (cfg : RiskSettings) (o : Opportunity)
    (h : o ∈ (fetchOptionsChain sym payload cfg).opportunities) :
    o.liquidity = liquidityTier o.totalVolume
  ∧ (o.liquidity = "HIGH" ↔ 1000 ≤ o.totalVolume)
  ∧ (o.liquidity = "MEDIUM" ↔ 500 ≤ o.totalVolume ∧ o.totalVolume < 1000)
  ∧ (o.liquidity = "LOW" ↔ o.totalVolume < 500) := by
  obtain ⟨-, -, -, -, -, -, -, hliq⟩ := mem_fetchOpportunities_props sym payload cfg o h
  obtain ⟨hh, hm, hl⟩ := liquidityTier_iff o.totalVolume
  rw [hliq]
  exact ⟨rfl, hh, hm, hl⟩

/-- C7 witness: the sample opportunity has volume 1200 and tier HIGH. -/
theorem liquidity_tier_of_volume_witness :
    sampleOpp.liquidity = liquidityTier sampleOpp.totalVolume
  ∧ (sampleOpp.liquidity = "HIGH" ↔ 1000 ≤ sampleOpp.totalVolume) := by
  have h := liquidity_tier_of_volume "AAPL" (some samplePayload) defaultRiskSettings
    sampleOpp (of_decide_eq_true (by with_unfolding_all rfl))
  exact ⟨h.1, h.2.1⟩

/-- Filtering, sorting and truncating the empty list yields the empty list. -/
lemma applyStrategyFilter_nil (strat : String) (cfg : RiskSettings) :
    applyStrategyFilter [] strat cfg = [] := by
  simp [applyStrategyFilter, sortByLceDesc]

/-- C6: when the provider payload for a symbol has neither a call map nor a
put map, the fetch step produces an error that is logged with severity
`error` and yields an empty result list for that symbol, and the scan
loop's accumulation over the remaining symbols is exactly the accumulation
with that symbol removed — already-accumulated opportunities are unchanged
and the multi-symbol scan is never aborted. -/
theorem noData_error_isolated (sym : String) (cfg : RiskSettings) (d : ChainPayload)
    (hc : d.callExpDateMap = none) (hp : d.putExpDateMap = none) :
    fetchOptionsChainEx sym (some d) cfg = Except.error ("No options data for " ++ sym)
  ∧ (fetchOptionsChain sym (some d) cfg).opportunities = []
  ∧ (fetchOptionsChain sym (some d) cfg).log
      = [{ message := "Failed to fetch options for " ++ sym ++ ": "
                        ++ ("No options data for " ++ sym),
           type := "error" }]
  ∧ (∀ (strat : String) (ps qs : List (String × Option ChainPayload)),
      scanAccum (ps ++ (sym, some d) :: qs) strat cfg = scanAccum (ps ++ qs) strat cfg) := by
  have hEx : fetchOptionsChainEx sym (some d) cfg
      = Except.error ("No options data for " ++ sym) := by
    simp [fetchOptionsChainEx, hc, hp]
  have hFetch : fetchOptionsChain sym (some d) cfg
      = { opportunities := [],
          log := [{ message := "Failed to fetch options for " ++ sym ++ ": "
                               ++ ("No options data for " ++ sym),
                    type := "error" }] } := by
    simp [fetchOptionsChain, hEx]
  refine ⟨hEx, by rw [hFetch], by rw [hFetch], ?_⟩
  intro strat ps qs
  simp only [scanAccum, List.foldl_append, List.foldl_cons, hFetch,
    applyStrategyFilter_nil, List.append_nil]

/-- C6 witness: scanning a concrete symbol list where SPY has an empty
payload accumulates exactly what scanning without SPY accumulates, and the
SPY fetch yields the empty list. -/
theorem noData_error_isolated_witness :
    (fetchOptionsChain "SPY" (some emptyPayload) defaultRiskSettings).opportunities = []
  ∧ scanAccum [("AAPL", some samplePayload), ("SPY", some emptyPayload)]
      "HIGH_MOMENTUM" defaultRiskSettings
      = scanAccum [("AAPL", some samplePayload)] "HIGH_MOMENTUM" defaultRiskSettings := by
  have h := noData_error_isolated "SPY" defaultRiskSettings emptyPayload rfl rfl
  exact ⟨h.2.1, h.2.2.2 "HIGH_MOMENTUM" [("AAPL", some samplePayload)] []⟩

/-- The strategy filter only selects from its input list. -/
lemma mem_applyStrategyFilter_sub (os : List Opportunity) (strat : String)
    (cfg : RiskSettings) (o : Opportunity) (h : o ∈ applyStrategyFilter os strat cfg) :
    o ∈ os := by
  have h1 : o ∈ sortByLceDesc (os.filter (strategyPasses cfg strat)) :=
    (List.take_sublist 50 _).subset h
  rw [sortByLceDesc, List.mem_mergeSort] at h1
  exact (List.mem_filter.mp h1).1

/-- Every accumulated opportunity comes from the strategy-filtered fetch of
one of the scanned symbols. -/
lemma mem_scanAccum_ex (ps : List (String × Option ChainPayload)) (strat : String)
    (cfg : RiskSettings) (o : Opportunity) (h : o ∈ scanAccum ps strat cfg) :
    ∃ x ∈ ps, o ∈ applyStrategyFilter (fetchOptionsChain x.1 x.2 cfg).opportunities strat cfg := by
  have key : ∀ (l : List (String × Option ChainPayload)) (acc : List Opportunity),
      o ∈ l.foldl (fun acc sp =>
        acc ++ applyStrategyFilter (fetchOptionsChain sp.1 sp.2 cfg).opportunities strat cfg) acc →
      o ∈ acc ∨ ∃ x ∈ l,
        o ∈ applyStrategyFilter (fetchOptionsChain x.1 x.2 cfg).opportunities strat cfg := by
    intro l
    induction l with
    | nil => intro acc h'; exact Or.inl h'
    | cons p rest ih =>
      intro acc h'
      rw [List.foldl_cons] at h'
      rcases ih _ h' with h'' | ⟨x, hx, hox⟩
      · rcases List.mem_append.mp h'' with ha | hb
        · exact Or.inl ha
        · exact Or.inr ⟨p, List.mem_cons_self p rest, hb⟩
      · exact Or.inr ⟨x, List.mem_cons_of_mem p hx, hox⟩
  rcases key ps [] h with h' | hex
  · exact absurd h' (List.not_mem_nil o)
  · exact hex

/-- The symbol of every scan-result opportunity is one of the scanned
symbols. -/
lemma mem_startScanCore_symbol (ps : List (String × Option ChainPayload)) (strat : String)
    (cfg : RiskSettings) (o : Opportunity) (h : o ∈ startScanCore ps strat cfg) :
    ∃ x ∈ ps, o.symbol = x.1 := by
  have h1 : o ∈ sortByLceDesc (scanAccum ps strat cfg) :=
    (List.take_sublist 100 _).subset h
  rw [sortByLceDesc, List.mem_mergeSort] at h1
  obtain ⟨x, hx, hox⟩ := mem_scanAccum_ex ps strat cfg o h1
  have h2 := mem_applyStrategyFilter_sub _ strat cfg o hox
  exact ⟨x, hx, (mem_fetchOpportunities_props x.1 x.2 cfg o h2).1⟩

/-- C9 counterexample: `PELOTON` is one of the scanned symbols, the engine
produces an opportunity whose symbol is the 7-letter string `PELOTON`, and
7 > 5, so symbols are not always tickers of 1 to 5 letters. -/
theorem symbol_length_counterexample :
    "PELOTON" ∈ POPULAR_SYMBOLS
  ∧ (startScanCore [("PELOTON", some pelotonPayload)] "HIGH_MOMENTUM" defaultRiskSettings).map
      (fun o => o.symbol) = ["PELOTON"]
  ∧ "PELOTON".length = 7
  ∧ ¬ ("PELOTON".length ≤ 5) :=
  ⟨by decide, by with_unfolding_all rfl, by decide, by decide⟩

/-- C9 amended: for every NormalizedOpportunity produced by the engine when
scanning symbols drawn from `POPULAR_SYMBOLS`, the symbol field is an
uppercase ticker of 1 to 7 letters. -/
theorem engine_symbol_upper_ticker (ps : List (String × Option ChainPayload))
    (strat : String) (cfg : RiskSettings)
    (hs : ∀ x ∈ ps, x.1 ∈ POPULAR_SYMBOLS) (o : Opportunity)
    (ho : o ∈ startScanCore ps strat cfg) :
    1 ≤ o.symbol.length ∧ o.symbol.length ≤ 7
  ∧ o.symbol.data.all isUpperAlpha = true := by
  have key : ∀ s ∈ POPULAR_SYMBOLS,
      1 ≤ s.length ∧ s.length ≤ 7 ∧ s.data.all isUpperAlpha = true := by decide
  obtain ⟨x, hx, hsym⟩ := mem_startScanCore_symbol ps strat cfg o ho
  rw [hsym]
  exact key x.1 (hs x hx)

/-- C9 amended witness: the concrete PELOTON opportunity has an uppercase
symbol of length between 1 and 7. -/
theorem engine_symbol_upper_ticker_witness :
    1 ≤ pelotonOpp.symbol.length ∧ pelotonOpp.symbol.length ≤ 7
  ∧ pelotonOpp.symbol.data.all isUpperAlpha = true :=
  engine_symbol_upper_ticker [("PELOTON", some pelotonPayload)] "HIGH_MOMENTUM"
    defaultRiskSettings (by decide) pelotonOpp (of_decide_eq_true (by with_unfolding_all rfl))

end OptionsScanner
